import Mathlib

/-!
Shallow embedding of the transactional domain-service layer of the
cactus-golang-hexagonal-microservice-boilerplate repository
(aggregate models User/Product/Order, domain services, cache decorator,
application-layer DTO validation), together with theorems settling the
frozen claims about it.

Modelling conventions:
* Go `time.Time` values are modelled as abstract `Nat` ticks; every
  operation that stamps `time.Now()` takes the current tick as an
  explicit argument.
* Go `float64` money amounts (prices, totals) are modelled as exact
  rationals (`Rat`); `+` and `*` on them model the Go arithmetic.
* Go `int` counters (stock, quantity) are modelled as unbounded `Int`;
  64-bit wraparound is outside the stated claims.
* Generated UUIDs are modelled as explicit arguments (`uid`, `idGen`).
* A Go method with receiver mutation and an `error` result is modelled
  as a function `α → Except DomainError α`: the `.ok` payload is the
  mutated receiver, `.error` means the receiver was left unchanged
  (each Go method checks all its guards before mutating).
* Repositories (out-of-scope adapters behind interfaces) are modelled
  as in-memory stores: a list of rows, or a lookup function.
-/

namespace Hexa

/-- Mirror of `model.DomainError` (domain_error.go): machine-readable
code, human message, HTTP status mapping. -/
structure DomainError where
  Code : String
  Message : String
  HTTPStatus : Nat
deriving DecidableEq, Repr

/-- Decidable equality on `Except` results, so that witnesses can be
checked by evaluation. -/
instance exceptDecEq {ε α : Type} [DecidableEq ε] [DecidableEq α] :
    DecidableEq (Except ε α) := fun x y =>
  match x, y with
  | .ok a, .ok b =>
      if h : a = b then .isTrue (by rw [h]) else .isFalse (by simp [h])
  | .error a, .error b =>
      if h : a = b then .isTrue (by rw [h]) else .isFalse (by simp [h])
  | .ok _, .error _ => .isFalse (by simp)
  | .error _, .ok _ => .isFalse (by simp)

def CodeValidationError : String := "VALIDATION_ERROR"
def CodeNotFound : String := "NOT_FOUND"
def CodeConflict : String := "CONFLICT"
def CodeInvalidState : String := "INVALID_STATE"
def CodeInsufficientStock : String := "INSUFFICIENT_STOCK"

/-- Mirror of `model.NewDomainError`. -/
def NewDomainError (code message : String) (httpStatus : Nat) : DomainError :=
  { Code := code, Message := message, HTTPStatus := httpStatus }

-- User domain errors (domain_error.go)
def ErrUserNotFound : DomainError := NewDomainError "USER_NOT_FOUND" "user not found" 404
def ErrUserEmailRequired : DomainError := NewDomainError CodeValidationError "user email is required" 400
def ErrUserEmailInvalid : DomainError := NewDomainError CodeValidationError "user email is invalid" 400
def ErrUserNameRequired : DomainError := NewDomainError CodeValidationError "user name is required" 400
def ErrUserPasswordRequired : DomainError := NewDomainError CodeValidationError "user password is required" 400
def ErrUserEmailTaken : DomainError := NewDomainError "EMAIL_TAKEN" "user email is already taken" 409

-- Product domain errors (domain_error.go)
def ErrProductNotFound : DomainError := NewDomainError "PRODUCT_NOT_FOUND" "product not found" 404
def ErrProductNameRequired : DomainError := NewDomainError CodeValidationError "product name is required" 400
def ErrProductPriceInvalid : DomainError := NewDomainError CodeValidationError "product price must be greater than zero" 400
def ErrProductStockInvalid : DomainError := NewDomainError CodeValidationError "product stock cannot be negative" 400
def ErrProductStockNegative : DomainError := NewDomainError CodeValidationError "product stock cannot be negative" 400
def ErrProductInsufficientStock : DomainError := NewDomainError CodeInsufficientStock "insufficient product stock" 409

-- Order domain errors (domain_error.go)
def ErrOrderNotFound : DomainError := NewDomainError "ORDER_NOT_FOUND" "order not found" 404
def ErrOrderUserRequired : DomainError := NewDomainError CodeValidationError "order user is required" 400
def ErrOrderItemsRequired : DomainError := NewDomainError CodeValidationError "order must have at least one item" 400
def ErrOrderInvalidStatus : DomainError := NewDomainError CodeInvalidState "invalid order status transition" 400
def ErrOrderAlreadyCancelled : DomainError := NewDomainError CodeInvalidState "order is already canceled" 409

/-- Mirror of `model.OrderStatus` (order model): the five status
constants. (In Go the type is a string; only these five values occur.) -/
inductive OrderStatus
  | pending
  | confirmed
  | shipped
  | delivered
  | canceled
deriving DecidableEq, Repr

/-- The string value of each `OrderStatus` constant. -/
def OrderStatus.toGoString : OrderStatus → String
  | .pending => "pending"
  | .confirmed => "confirmed"
  | .shipped => "shipped"
  | .delivered => "delivered"
  | .canceled => "canceled"

/-- Mirror of the domain-event structs of user.go, product.go and the
order model, merged into one sum type; `eventName` gives each
variant's `EventName()`. -/
inductive DomainEvent
  | OrderCreatedEvent (userID : String) (itemCount : Nat) (totalValue : Rat)
  | OrderStatusChangedEvent (orderID oldStatus newStatus : String)
  | OrderCancelledEvent (orderID oldStatus : String)
  | ProductCreatedEvent (name : String) (price : Rat) (stock : Int)
  | ProductUpdatedEvent (id name : String) (price : Rat)
  | ProductDeletedEvent (id : String)
  | StockUpdatedEvent (productID : String) (oldStock newStock change : Int)
  | UserCreatedEvent (email name : String)
  | UserUpdatedEvent (id name : String)
  | UserDeletedEvent (id : String)
deriving DecidableEq, Repr

/-- Mirror of `EventName()` of each domain event. -/
def DomainEvent.eventName : DomainEvent → String
  | .OrderCreatedEvent _ _ _ => "order.created"
  | .OrderStatusChangedEvent _ _ _ => "order.status_changed"
  | .OrderCancelledEvent _ _ => "order.cancelled"
  | .ProductCreatedEvent _ _ _ => "product.created"
  | .ProductUpdatedEvent _ _ _ => "product.updated"
  | .ProductDeletedEvent _ => "product.deleted"
  | .StockUpdatedEvent _ _ _ _ => "product.stock_updated"
  | .UserCreatedEvent _ _ => "user.created"
  | .UserUpdatedEvent _ _ => "user.updated"
  | .UserDeletedEvent _ => "user.deleted"

/-- Mirror of `model.OrderItem`. -/
structure OrderItem where
  ID : String
  OrderID : String
  ProductID : String
  Quantity : Int
  Price : Rat
  CreatedAt : Nat
deriving DecidableEq, Repr

/-- Mirror of `model.Order`. -/
structure Order where
  ID : String
  UserID : String
  Items : List OrderItem
  Total : Rat
  Status : OrderStatus
  CreatedAt : Nat
  UpdatedAt : Nat
  DeletedAt : Option Nat
  events : List DomainEvent
deriving DecidableEq, Repr

/-- Mirror of `(*Order).recordEvent`. -/
def Order.recordEvent (o : Order) (e : DomainEvent) : Order :=
  { o with events := o.events ++ [e] }

/-- Mirror of `(*Order).Validate`: non-empty user, at least one item. Returns
the error, if any (Go returns `error`, nil on success). -/
def Order.goValidate (o : Order) : Option DomainError :=
  if o.UserID = "" then some ErrOrderUserRequired
  else if o.Items.length = 0 then some ErrOrderItemsRequired
  else none

/-- The `for` loop of `(*Order).calculateTotal`:
`total += item.Price * float64(item.Quantity)` starting from 0. -/
def calculateTotalLoop (items : List OrderItem) : Rat :=
  items.foldl (fun total item => total + item.Price * (item.Quantity : Rat)) 0

/-- The item-ID-assignment loop of `NewOrder`: each item gets a fresh
generated ID, the order's ID and the current timestamp. -/
def assignItemIds (orderID : String) (idGen : Nat → String) (now : Nat) :
    Nat → List OrderItem → List OrderItem
  | _, [] => []
  | i, item :: rest =>
      { item with ID := idGen i, OrderID := orderID, CreatedAt := now } ::
        assignItemIds orderID idGen now (i + 1) rest

/-- Mirror of `model.NewOrder`: build the pending order, assign item
IDs, validate, compute the total, record `order.created`. The
generated order UUID, the item-UUID generator and the clock tick are
explicit arguments. -/
def NewOrder (orderID : String) (idGen : Nat → String) (now : Nat)
    (userID : String) (items : List OrderItem) : Except DomainError Order :=
  let items1 := assignItemIds orderID idGen now 0 items
  let o : Order :=
    { ID := orderID, UserID := userID, Items := items1, Total := 0,
      Status := .pending, CreatedAt := now, UpdatedAt := now,
      DeletedAt := none, events := [] }
  match o.goValidate with
  | some e => .error e
  | none =>
      let o1 := { o with Total := calculateTotalLoop o.Items }
      .ok (o1.recordEvent
        (.OrderCreatedEvent userID items1.length o1.Total))

/-- Mirror of `(*Order).Confirm`. -/
def Order.Confirm (now : Nat) (o : Order) : Except DomainError Order :=
  if o.Status ≠ .pending then .error ErrOrderInvalidStatus
  else
    let o1 := { o with Status := .confirmed, UpdatedAt := now }
    .ok (o1.recordEvent (.OrderStatusChangedEvent o.ID
      (OrderStatus.pending.toGoString) (OrderStatus.confirmed.toGoString)))

/-- Mirror of `(*Order).Ship`. -/
def Order.Ship (now : Nat) (o : Order) : Except DomainError Order :=
  if o.Status ≠ .confirmed then .error ErrOrderInvalidStatus
  else
    let o1 := { o with Status := .shipped, UpdatedAt := now }
    .ok (o1.recordEvent (.OrderStatusChangedEvent o.ID
      (OrderStatus.confirmed.toGoString) (OrderStatus.shipped.toGoString)))

/-- Mirror of `(*Order).Deliver`. -/
def Order.Deliver (now : Nat) (o : Order) : Except DomainError Order :=
  if o.Status ≠ .shipped then .error ErrOrderInvalidStatus
  else
    let o1 := { o with Status := .delivered, UpdatedAt := now }
    .ok (o1.recordEvent (.OrderStatusChangedEvent o.ID
      (OrderStatus.shipped.toGoString) (OrderStatus.delivered.toGoString)))

/-- Mirror of `(*Order).Cancel`: already-canceled is the distinct
`ErrOrderAlreadyCancelled`; delivered cannot be canceled. -/
def Order.Cancel (now : Nat) (o : Order) : Except DomainError Order :=
  if o.Status = .canceled then .error ErrOrderAlreadyCancelled
  else if o.Status = .delivered then .error ErrOrderInvalidStatus
  else
    let oldStatus := o.Status
    let o1 := { o with Status := .canceled, UpdatedAt := now }
    .ok (o1.recordEvent (.OrderCancelledEvent o.ID oldStatus.toGoString))

/-- Mirror of `(*Order).Events()`: drain — return the pending events and clear
them. -/
def Order.drainEvents (o : Order) : List DomainEvent × Order :=
  (o.events, { o with events := [] })

/-- Mirror of `model.Product`. -/
structure Product where
  ID : String
  Name : String
  Description : String
  Price : Rat
  Stock : Int
  CreatedAt : Nat
  UpdatedAt : Nat
  DeletedAt : Option Nat
  events : List DomainEvent
deriving DecidableEq, Repr

/-- Mirror of `(*Product).recordEvent`. -/
def Product.recordEvent (p : Product) (e : DomainEvent) : Product :=
  { p with events := p.events ++ [e] }

/-- Mirror of `(*Product).Validate`. -/
def Product.goValidate (p : Product) : Option DomainError :=
  if p.Name = "" then some ErrProductNameRequired
  else if p.Price ≤ 0 then some ErrProductPriceInvalid
  else if p.Stock < 0 then some ErrProductStockNegative
  else none

/-- Mirror of `model.NewProduct`. -/
def NewProduct (now : Nat) (name description : String) (price : Rat)
    (stock : Int) : Except DomainError Product :=
  let p : Product :=
    { ID := "", Name := name, Description := description, Price := price,
      Stock := stock, CreatedAt := now, UpdatedAt := now,
      DeletedAt := none, events := [] }
  match p.goValidate with
  | some e => .error e
  | none => .ok (p.recordEvent (.ProductCreatedEvent name price stock))

/-- Mirror of `(*Product).Update`: validates name and price, applies, records
one `product.updated` event. -/
def Product.Update (now : Nat) (name description : String) (price : Rat)
    (p : Product) : Except DomainError Product :=
  if name = "" then .error ErrProductNameRequired
  else if price ≤ 0 then .error ErrProductPriceInvalid
  else
    let p1 := { p with Name := name, Description := description,
                       Price := price, UpdatedAt := now }
    .ok (p1.recordEvent (.ProductUpdatedEvent p1.ID name price))

/-- Mirror of `(*Product).UpdateStock`: fails with `ErrProductStockNegative`
when the new stock would be negative; otherwise applies the signed
delta and records one `product.stock_updated` event. The event's
`OldStock` field is computed from the already-mutated stock, as in the
Go source (`OldStock: p.Stock - quantity`). -/
def Product.UpdateStock (now : Nat) (quantity : Int) (p : Product) :
    Except DomainError Product :=
  let newStock := p.Stock + quantity
  if newStock < 0 then .error ErrProductStockNegative
  else
    let p1 := { p with Stock := newStock, UpdatedAt := now }
    .ok (p1.recordEvent
      (.StockUpdatedEvent p1.ID (p1.Stock - quantity) newStock quantity))

/-- Mirror of `(*Product).ReserveStock`: fails with
`ErrProductInsufficientStock` when stock is below the requested
quantity; otherwise decrements the stock. The Go method records no
domain event. -/
def Product.ReserveStock (now : Nat) (quantity : Int) (p : Product) :
    Except DomainError Product :=
  if p.Stock < quantity then .error ErrProductInsufficientStock
  else .ok { p with Stock := p.Stock - quantity, UpdatedAt := now }

/-- Mirror of `(*Product).MarkDeleted`: always succeeds, stamps the soft-delete
marker, records one `product.deleted` event. -/
def Product.MarkDeleted (now : Nat) (p : Product) : Product :=
  ({ p with DeletedAt := some now } : Product).recordEvent
    (.ProductDeletedEvent p.ID)

/-- Mirror of `(*Product).Events()`: drain. -/
def Product.drainEvents (p : Product) : List DomainEvent × Product :=
  (p.events, { p with events := [] })

/-- Mirror of `model.User`. -/
structure User where
  ID : String
  Email : String
  Name : String
  Password : String
  CreatedAt : Nat
  UpdatedAt : Nat
  DeletedAt : Option Nat
  events : List DomainEvent
deriving DecidableEq, Repr

/-- Mirror of `(*User).recordEvent`. -/
def User.recordEvent (u : User) (e : DomainEvent) : User :=
  { u with events := u.events ++ [e] }

def isEmailLocalChar (c : Char) : Bool :=
  c.isAlphanum || c = '.' || c = '_' || c = '%' || c = '+' || c = '-'

def isEmailDomainChar (c : Char) : Bool :=
  c.isAlphanum || c = '.' || c = '-'

/-- Split a character list at the first occurrence of `sep`:
`some (before, after)` when present. -/
def splitAtFirst (sep : Char) : List Char → Option (List Char × List Char)
  | [] => none
  | c :: rest =>
      if c = sep then some ([], rest)
      else
        match splitAtFirst sep rest with
        | some (pre, post) => some (c :: pre, post)
        | none => none

/-- Executable model of the anchored Go regex
`[a-zA-Z0-9._%+-]+@[a-zA-Z0-9.-]+\.[a-zA-Z]{2,}` used by
`(*User).Validate`: a non-empty local part of local-class characters,
one `@`, a non-empty domain part of domain-class characters, a dot,
and a top-level label of at least two letters. Since the label class
contains no dot, a match exists iff the split at the *last* dot after
the `@` works, and neither character class contains `@`, so the split
at the first `@` is the only candidate. -/
def emailRegexMatches (s : String) : Bool :=
  match splitAtFirst '@' s.toList with
  | none => false
  | some (localPart, rest) =>
      let revRest := rest.reverse
      match splitAtFirst '.' revRest with
      | none => false
      | some (revLabel, revDomain) =>
          let label := revLabel.reverse
          let domainPart := revDomain.reverse
          decide (localPart ≠ []) && localPart.all isEmailLocalChar &&
          decide (domainPart ≠ []) && domainPart.all isEmailDomainChar &&
          decide (label.length ≥ 2) && label.all Char.isAlpha

/-- Mirror of `(*User).Validate`. -/
def User.goValidate (u : User) : Option DomainError :=
  if u.Email = "" then some ErrUserEmailRequired
  else if ¬ emailRegexMatches u.Email then some ErrUserEmailInvalid
  else if u.Name = "" then some ErrUserNameRequired
  else if u.Password = "" then some ErrUserPasswordRequired
  else none

/-- Mirror of `model.NewUser` (generated UUID and clock tick
explicit). -/
def NewUser (uid : String) (now : Nat) (email name password : String) :
    Except DomainError User :=
  let u : User :=
    { ID := uid, Email := email, Name := name, Password := password,
      CreatedAt := now, UpdatedAt := now, DeletedAt := none, events := [] }
  match u.goValidate with
  | some e => .error e
  | none => .ok (u.recordEvent (.UserCreatedEvent email name))

/-- Mirror of `(*User).Update`: non-empty name required; records one
`user.updated` event. -/
def User.Update (now : Nat) (name : String) (u : User) :
    Except DomainError User :=
  if name = "" then .error ErrUserNameRequired
  else
    let u1 := { u with Name := name, UpdatedAt := now }
    .ok (u1.recordEvent (.UserUpdatedEvent u1.ID name))

/-- Mirror of `(*User).UpdatePassword`: no validation, no error, no event — it
unconditionally overwrites the (hashed) password. -/
def User.UpdatePassword (now : Nat) (hashedPassword : String) (u : User) :
    User :=
  { u with Password := hashedPassword, UpdatedAt := now }

/-- Mirror of `(*User).MarkDeleted`: stamps the soft-delete marker, records one
`user.deleted` event. -/
def User.MarkDeleted (now : Nat) (u : User) : User :=
  ({ u with DeletedAt := some now } : User).recordEvent
    (.UserDeletedEvent u.ID)

/-- Mirror of `(*User).Events()`: drain. -/
def User.drainEvents (u : User) : List DomainEvent × User :=
  (u.events, { u with events := [] })

/-! ## Domain services

The repositories are out-of-scope adapters behind interfaces; they are
modelled as in-memory stores. Domain events are an in-memory (unexported)
field, not a persisted column, so a persisted/re-read row carries an
empty event list: persistence stores the drained record. A service
operation returns the updated store together with its Go result;
on an error result the store is returned unchanged (the Go code
returns before any repository write). -/

/-- The `switch status` dispatch of `OrderService.UpdateStatus`: each
recognised target status calls the corresponding transition method;
anything else (here: `pending`) hits the `default` branch. -/
def orderStatusDispatch (now : Nat) (status : OrderStatus) (o : Order) :
    Except DomainError Order :=
  match status with
  | .confirmed => o.Confirm now
  | .shipped => o.Ship now
  | .delivered => o.Deliver now
  | .canceled => o.Cancel now
  | .pending => .error ErrOrderInvalidStatus

/-- Mirror of `OrderService.UpdateStatus`: load the order, dispatch the
transition, persist the new status via the narrow
`repo.UpdateStatus(id, status)`, publish the drained events. Returns
(new store, published events, error). -/
def OrderService.UpdateStatus (now : Nat) (db : String → Option Order)
    (id : String) (status : OrderStatus) :
    (String → Option Order) × List DomainEvent × Option DomainError :=
  match db id with
  | none => (db, [], some ErrOrderNotFound)
  | some o =>
      match orderStatusDispatch now status o with
      | .error e => (db, [], some e)
      | .ok o1 =>
          let db1 := fun k => if k = id then some { o with Status := status } else db k
          (db1, o1.events, none)

/-- Mirror of `OrderService.Cancel`: load, `order.Cancel()`, persist status
`canceled` via `repo.UpdateStatus`, publish. -/
def OrderService.Cancel (now : Nat) (db : String → Option Order)
    (id : String) :
    (String → Option Order) × List DomainEvent × Option DomainError :=
  match db id with
  | none => (db, [], some ErrOrderNotFound)
  | some o =>
      match o.Cancel now with
      | .error e => (db, [], some e)
      | .ok o1 =>
          let db1 := fun k =>
            if k = id then some { o with Status := OrderStatus.canceled } else db k
          (db1, o1.events, none)

/-- Mirror of `OrderService.Create`: verify the owning user exists, construct
via `model.NewOrder`, persist, publish the drained events. The stored
row is the drained order. -/
def OrderService.Create (orderID : String) (idGen : Nat → String) (now : Nat)
    (userDB : String → Option User) (orderDB : List Order)
    (userID : String) (items : List OrderItem) :
    List Order × Except DomainError (Order × List DomainEvent) :=
  match userDB userID with
  | none => (orderDB, .error ErrUserNotFound)
  | some _ =>
      match NewOrder orderID idGen now userID items with
      | .error e => (orderDB, .error e)
      | .ok o =>
          let (evs, o1) := o.drainEvents
          (orderDB ++ [o1], .ok (o1, evs))

/-- Mirror of `UserService.Get`: pure repository read by ID. -/
def UserService.Get (db : List User) (id : String) : Option User :=
  db.find? (fun u => u.ID == id)

/-- Mirror of `UserService.Create`: the `GetByEmail` uniqueness lookup runs
first; only when it finds nothing is the `NewUser` factory invoked and
the row inserted, then the events drained and published. Returns
(new store, result with published events). -/
def UserService.Create (uid : String) (now : Nat) (db : List User)
    (email name password : String) :
    List User × Except DomainError (User × List DomainEvent) :=
  match db.find? (fun u => u.Email == email) with
  | some _ => (db, .error ErrUserEmailTaken)
  | none =>
      match NewUser uid now email name password with
      | .error e => (db, .error e)
      | .ok user =>
          let (evs, user1) := user.drainEvents
          (db ++ [user1], .ok (user1, evs))

/-- Mirror of `UserService.Update`: load, `user.Update(name)`, persist, publish
(draining the events); the drained user is both stored and returned. -/
def UserService.Update (now : Nat) (db : List User) (id name : String) :
    List User × Except DomainError User :=
  match db.find? (fun u => u.ID == id) with
  | none => (db, .error ErrUserNotFound)
  | some u =>
      match u.Update now name with
      | .error e => (db, .error e)
      | .ok u1 =>
          let (_evs, u2) := u1.drainEvents
          (db.map (fun v => if v.ID == id then u2 else v), .ok u2)

/-- Mirror of `UserService.Delete`: load, mark deleted, `repo.Delete(id)` (the
row disappears from subsequent reads), publish. -/
def UserService.Delete (now : Nat) (db : List User) (id : String) :
    List User × Except DomainError Unit :=
  match db.find? (fun u => u.ID == id) with
  | none => (db, .error ErrUserNotFound)
  | some u =>
      let _marked := u.MarkDeleted now
      (db.filter (fun v => ¬ v.ID == id), .ok ())

/-! ## Cache decorator (cached_user_service.go) -/

/-- A value stored in the Redis cache: a serialized user under a
primary key, or a user-ID string under an email key. -/
inductive CacheVal
  | user (u : User)
  | uid (s : String)
deriving DecidableEq, Repr

/-- Mirror of `userCacheKey`: `"user:" + id`. -/
def userCacheKey (id : String) : String := "user:" ++ id

/-- Mirror of `emailCacheKey`: `"user:email:" + email`. -/
def emailCacheKey (email : String) : String := "user:email:" ++ email

/-- The cache, keyed by opaque strings. -/
def Cache : Type := String → Option CacheVal

/-- Mirror of `cache.Set`. -/
def cacheSet (c : Cache) (k : String) (v : CacheVal) : Cache :=
  fun x => if x = k then some v else c x

/-- Mirror of `cache.Delete`. -/
def cacheDeleteKey (c : Cache) (k : String) : Cache :=
  fun x => if x = k then none else c x

/-- Mirror of `(*CachedUserService).cacheUser`: set the primary entry and the
email → id mapping. -/
def cacheUser (c : Cache) (u : User) : Cache :=
  cacheSet (cacheSet c (userCacheKey u.ID) (.user u)) (emailCacheKey u.Email) (.uid u.ID)

/-- Mirror of `(*CachedUserService).invalidateUserCache`. -/
def invalidateUserCache (c : Cache) (id : String) : Cache :=
  cacheDeleteKey c (userCacheKey id)

/-- Mirror of `(*CachedUserService).invalidateEmailCache`. -/
def invalidateEmailCache (c : Cache) (email : String) : Cache :=
  cacheDeleteKey c (emailCacheKey email)

/-- Mirror of `(*CachedUserService).Update`: read the pre-update user through
the delegate (a repository read, no cache effect), delegate the
update; on delegate failure return with the cache untouched; on
success invalidate the primary entry, invalidate the pre-update
user's email entry when available, then repopulate via `cacheUser`. -/
def CachedUserService.Update (now : Nat) (db : List User) (c : Cache)
    (id name : String) :
    List User × Cache × Except DomainError User :=
  let currentUser := UserService.Get db id
  match UserService.Update now db id name with
  | (db1, .error e) => (db1, c, .error e)
  | (db1, .ok user) =>
      let c1 := invalidateUserCache c id
      let c2 := match currentUser with
                | some cu => invalidateEmailCache c1 cu.Email
                | none => c1
      let c3 := cacheUser c2 user
      (db1, c3, .ok user)

/-- Mirror of `(*CachedUserService).Delete`: read the pre-update user through
the delegate, delegate the delete; on failure the cache is untouched;
on success invalidate the primary entry and, when the pre-update user
was available, its email entry. No repopulation. -/
def CachedUserService.Delete (now : Nat) (db : List User) (c : Cache)
    (id : String) :
    List User × Cache × Except DomainError Unit :=
  let currentUser := UserService.Get db id
  match UserService.Delete now db id with
  | (db1, .error e) => (db1, c, .error e)
  | (db1, .ok _) =>
      let c1 := invalidateUserCache c id
      let c2 := match currentUser with
                | some cu => invalidateEmailCache c1 cu.Email
                | none => c1
      (db1, c2, .ok ())

/-- Mirror of `(*CachedUserService).Get` (cache-aside): a cached user under the
primary key is returned directly (hit); anything else — no entry, or
an entry that does not deserialize as a user — falls through to the
delegate, whose non-nil result is cached. Returns
(new cache, result, hit flag). -/
def CachedUserService.Get (db : List User) (c : Cache) (id : String) :
    Cache × Option User × Bool :=
  match c (userCacheKey id) with
  | some (.user u) => (c, some u, true)
  | _ =>
      match UserService.Get db id with
      | none => (c, none, false)
      | some r => (cacheUser c r, some r, false)

/-! ## Application layer DTO validation and use cases

Application-layer errors are plain `errors.New` values; they are
modelled by their message strings. -/

/-- Mirror of `order.OrderItemInput`. -/
structure OrderItemInput where
  ProductID : String
  Quantity : Int
  Price : Rat
deriving DecidableEq, Repr

/-- Mirror of `order.CreateOrderInput`. -/
structure CreateOrderInput where
  UserID : String
  Items : List OrderItemInput
deriving DecidableEq, Repr

/-- The per-item loop of `(*CreateOrderInput).Validate`. -/
def validateOrderItemsLoop : List OrderItemInput → Option String
  | [] => none
  | item :: rest =>
      if item.ProductID = "" then some "invalid product ID"
      else if item.Quantity ≤ 0 then some "quantity must be greater than zero"
      else if item.Price ≤ 0 then some "price must be greater than zero"
      else validateOrderItemsLoop rest

/-- Mirror of `(*CreateOrderInput).Validate`: non-empty user ID, at least one
item, and every item with a product ID, quantity > 0 and price > 0. -/
def CreateOrderInput.goValidate (i : CreateOrderInput) : Option String :=
  if i.UserID = "" then some "invalid user ID"
  else if i.Items.length = 0 then some "at least one item is required"
  else validateOrderItemsLoop i.Items

/-- An application-layer result error: a DTO validation message or a
propagated domain error. -/
inductive AppError
  | app (msg : String)
  | domain (e : DomainError)
deriving DecidableEq, Repr

/-- Mirror of `(*CreateOrderUseCase).Execute`: validate the input, map the item
inputs to `model.OrderItem` values (IDs and timestamps are zero until
`NewOrder` assigns them), call `orderService.Create`. -/
def CreateOrderUseCase.Execute (orderID : String) (idGen : Nat → String)
    (now : Nat) (userDB : String → Option User) (orderDB : List Order)
    (input : CreateOrderInput) : List Order × Except AppError Order :=
  match input.goValidate with
  | some msg => (orderDB, .error (.app msg))
  | none =>
      let items := input.Items.map (fun it =>
        ({ ID := "", OrderID := "", ProductID := it.ProductID,
           Quantity := it.Quantity, Price := it.Price,
           CreatedAt := 0 } : OrderItem))
      match OrderService.Create orderID idGen now userDB orderDB
          input.UserID items with
      | (db1, .error e) => (db1, .error (.domain e))
      | (db1, .ok (o, _evs)) => (db1, .ok o)

/-- Mirror of `order.ListOrdersInput`. -/
structure ListOrdersInput where
  Offset : Int
  Limit : Int
deriving DecidableEq, Repr

/-- Mirror of `(*ListOrdersInput).Validate`: clamp `Limit ≤ 0` to 10 and
`Offset < 0` to 0 in place (the Go method always returns nil). -/
def ListOrdersInput.goValidate (i : ListOrdersInput) : ListOrdersInput :=
  let i1 := if i.Limit ≤ 0 then { i with Limit := 10 } else i
  if i1.Offset < 0 then { i1 with Offset := 0 } else i1

/-- Mirror of `product.ListProductsInput`. -/
structure ListProductsInput where
  Offset : Int
  Limit : Int
deriving DecidableEq, Repr

/-- Mirror of `(*ListProductsInput).Validate`: same clamping. -/
def ListProductsInput.goValidate (i : ListProductsInput) : ListProductsInput :=
  let i1 := if i.Limit ≤ 0 then { i with Limit := 10 } else i
  if i1.Offset < 0 then { i1 with Offset := 0 } else i1

/-- Mirror of `user.ListUsersInput`. -/
structure ListUsersInput where
  Offset : Int
  Limit : Int
deriving DecidableEq, Repr

/-- Mirror of `(*ListUsersInput).Validate`: same clamping. -/
def ListUsersInput.goValidate (i : ListUsersInput) : ListUsersInput :=
  let i1 := if i.Limit ≤ 0 then { i with Limit := 10 } else i
  if i1.Offset < 0 then { i1 with Offset := 0 } else i1

/-- Mirror of `OrderService.List`: pure pass-through to `repo.List`. The
repository query is abstracted as a function argument. -/
def OrderService.List {α : Type} (repoList : Int → Int → α)
    (offset limit : Int) : α :=
  repoList offset limit

/-- Mirror of `ProductService.List`: pure pass-through to `repo.List`. -/
def ProductService.List {α : Type} (repoList : Int → Int → α)
    (offset limit : Int) : α :=
  repoList offset limit

/-- Mirror of `UserService.List`: pure pass-through to `repo.List`. -/
def UserService.List {α : Type} (repoList : Int → Int → α)
    (offset limit : Int) : α :=
  repoList offset limit

/-- Mirror of `(*ListOrdersUseCase).Execute`: validate (clamp) the input, then
query through `orderService.List`. -/
def ListOrdersUseCase.Execute {α : Type} (repoList : Int → Int → α)
    (input : ListOrdersInput) : α :=
  let v := input.goValidate
  OrderService.List repoList v.Offset v.Limit

/-- Mirror of `(*ListProductsUseCase).Execute`. -/
def ListProductsUseCase.Execute {α : Type} (repoList : Int → Int → α)
    (input : ListProductsInput) : α :=
  let v := input.goValidate
  ProductService.List repoList v.Offset v.Limit

/-- Mirror of `(*ListUsersUseCase).Execute`. -/
def ListUsersUseCase.Execute {α : Type} (repoList : Int → Int → α)
    (input : ListUsersInput) : α :=
  let v := input.goValidate
  UserService.List repoList v.Offset v.Limit

/-! ## Claim-statement vocabulary

These definitions transcribe the transition table and the event/sum
wording of the claims (not the code); the theorems compare the code
against them. -/

/-- The §4.3 transition table as stated in the claims:
pending → confirmed/canceled, confirmed → shipped/canceled,
shipped → delivered/canceled; delivered and canceled terminal. -/
def allowedTransition : OrderStatus → OrderStatus → Bool
  | .pending, .confirmed => true
  | .pending, .canceled => true
  | .confirmed, .shipped => true
  | .confirmed, .canceled => true
  | .shipped, .delivered => true
  | .shipped, .canceled => true
  | _, _ => false

/-- The event a successful transition appends per the claim: a
status-changed event, or, when the target is `canceled`, a
cancellation event. -/
def transitionEvent (orderID : String) (fromStatus toStatus : OrderStatus) :
    DomainEvent :=
  if toStatus = .canceled then
    .OrderCancelledEvent orderID fromStatus.toGoString
  else
    .OrderStatusChangedEvent orderID fromStatus.toGoString toStatus.toGoString

/-- The mathematical sum of quantity × unit price over the items, as
the claims word the order total. -/
def itemsTotalSpec (items : List OrderItem) : Rat :=
  (items.map (fun item => (item.Quantity : Rat) * item.Price)).sum

/-- Observe the stock of an `UpdateStock` outcome (`none` on error). -/
def exceptStock : Except DomainError Product → Option Int
  | .ok p => some p.Stock
  | .error _ => none

/-- Orders in the image of the validating factory, closed under the
successful transitions dispatched by `OrderService.UpdateStatus`
(which covers `Confirm`, `Ship`, `Deliver` and `Cancel`). -/
inductive ReachableOrder : Order → Prop
  | created (orderID : String) (idGen : Nat → String) (now : Nat)
      (userID : String) (items : List OrderItem) (o : Order) :
      NewOrder orderID idGen now userID items = .ok o → ReachableOrder o
  | step (now : Nat) (target : OrderStatus) (o o' : Order) :
      ReachableOrder o → orderStatusDispatch now target o = .ok o' →
      ReachableOrder o'

/-! ## Concrete fixtures used by witnesses and counterexamples -/

def witItemRaw : OrderItem :=
  { ID := "", OrderID := "", ProductID := "p1", Quantity := 2, Price := 3,
    CreatedAt := 0 }

def witOrderPending : Order :=
  { ID := "o1", UserID := "u1",
    Items := [{ witItemRaw with ID := "i0", OrderID := "o1" }],
    Total := 6, Status := .pending, CreatedAt := 0, UpdatedAt := 0,
    DeletedAt := none, events := [.OrderCreatedEvent "u1" 1 6] }

def witOrderCanceled : Order :=
  { witOrderPending with Status := OrderStatus.canceled, events := [] }

def witOrderDB : String → Option Order :=
  fun k => if k = "o1" then some witOrderPending else none

def witOrderCanceledDB : String → Option Order :=
  fun k => if k = "oC" then some witOrderCanceled else none

def witProduct0 : Product :=
  { ID := "p1", Name := "Widget", Description := "", Price := 2, Stock := 0,
    CreatedAt := 0, UpdatedAt := 0, DeletedAt := none, events := [] }

def witProduct5 : Product := { witProduct0 with Stock := 5 }

def witUser : User :=
  { ID := "u1", Email := "a@b.com", Name := "A", Password := "secret1",
    CreatedAt := 0, UpdatedAt := 0, DeletedAt := none, events := [] }

def witProduct5Upd : Product :=
  { witProduct5 with
    Stock := 8
    UpdatedAt := 1
    events := [.StockUpdatedEvent "p1" 5 8 3] }

def witProductUpd : Product :=
  { witProduct5 with
    Name := "N2"
    Description := "d"
    Price := 4
    UpdatedAt := 2
    events := [.ProductUpdatedEvent "p1" "N2" 4] }

def witUserDB : String → Option User :=
  fun k => if k = "u1" then some witUser else none

def witCreateInput : CreateOrderInput :=
  { UserID := "u1", Items := [{ ProductID := "p1", Quantity := 2, Price := 3 }] }

def witOrderDrained : Order := { witOrderPending with events := [] }

def witUserUpd : User := { witUser with Name := "B", UpdatedAt := 2 }

def witCacheAfterUpdate : Cache :=
  cacheUser
    (invalidateEmailCache (invalidateUserCache (fun _ => none) "u1")
      "a@b.com")
    witUserUpd

/-! ## Supporting lemmas -/

/-- Shape of a successful `UpdateStock`: exactly one consistent
`product.stock_updated` event appended, stock updated by the delta. -/
theorem updateStock_ok_shape (now : Nat) (q : Int) (p p' : Product)
    (h : Product.UpdateStock now q p = .ok p') :
    p'.events = p.events ++
      [DomainEvent.StockUpdatedEvent p.ID p.Stock (p.Stock + q) q] ∧
    p'.Stock = p.Stock + q := by
  unfold Product.UpdateStock at h
  by_cases hneg : p.Stock + q < 0
  · simp [hneg] at h
  · simp only [hneg, if_false, if_neg, not_false_eq_true,
      Except.ok.injEq] at h
    subst h
    refine ⟨?_, rfl⟩
    simp [Product.recordEvent, add_sub_cancel_right]

/-- The running-total loop of `calculateTotal` computes the
mathematical sum of quantity × price. -/
theorem calculateTotalLoop_eq_spec (items : List OrderItem) :
    calculateTotalLoop items = itemsTotalSpec items := by
  have key : ∀ (l : List OrderItem) (a : Rat),
      l.foldl (fun total item => total + item.Price * (item.Quantity : Rat)) a
        = a + itemsTotalSpec l := by
    intro l
    induction l with
    | nil => intro a; simp [itemsTotalSpec]
    | cons x xs ih =>
        intro a
        rw [List.foldl_cons, ih]
        simp only [itemsTotalSpec, List.map_cons, List.sum_cons]
        ring
  simpa [calculateTotalLoop] using key items 0

/-- Shape of a successful `NewOrder`: the resulting order carries the
given user, the ID-assigned items, the loop-computed total, status
`pending`, and exactly the creation event. -/
theorem NewOrder_ok_shape (orderID : String) (idGen : Nat → String)
    (now : Nat) (userID : String) (items : List OrderItem) (o : Order)
    (h : NewOrder orderID idGen now userID items = .ok o) :
    o.UserID = userID ∧
    o.Items = assignItemIds orderID idGen now 0 items ∧
    o.Total = calculateTotalLoop o.Items ∧
    o.Status = .pending ∧
    userID ≠ "" ∧ o.Items ≠ [] := by
  unfold NewOrder Order.goValidate at h
  by_cases huid : userID = ""
  · simp [huid] at h
  · by_cases hlen : (assignItemIds orderID idGen now 0 items).length = 0
    · simp [huid, hlen] at h
    · simp only [huid, hlen, if_false, ite_false, if_neg, Order.recordEvent,
        Except.ok.injEq] at h
      subst h
      refine ⟨rfl, rfl, rfl, rfl, huid, ?_⟩
      simpa [List.length_eq_zero] using hlen

/-! ## Claim theorems -/

/-- Claim C2: for every order produced by `NewOrder` and carried through any
sequence of successful status transitions (`Confirm`, `Ship`,
`Deliver`, `Cancel`, as dispatched by the order service), the `Total`
field equals the sum over its items of quantity × unit price. -/
theorem order_total_is_item_sum (o : Order) (h : ReachableOrder o) :
    o.Total = itemsTotalSpec o.Items := by
  induction h with
  | created orderID idGen now userID items o hnew =>
      obtain ⟨-, -, htotal, -, -, -⟩ :=
        NewOrder_ok_shape orderID idGen now userID items o hnew
      rw [htotal, calculateTotalLoop_eq_spec]
  | step now target o o' hr hstep ih =>
      have hpres : o'.Total = o.Total ∧ o'.Items = o.Items := by
        cases target <;>
          simp only [orderStatusDispatch, Order.Confirm, Order.Ship,
            Order.Deliver, Order.Cancel] at hstep <;>
          (try split at hstep) <;> (try split at hstep) <;>
          first
            | (simp only [Except.ok.injEq] at hstep
               subst hstep
               simp [Order.recordEvent])
            | simp at hstep
      rw [hpres.1, hpres.2]
      exact ih

/-- Witness for C2 at a concrete created order. -/
theorem order_total_is_item_sum_witness :
    witOrderPending.Total = itemsTotalSpec witOrderPending.Items :=
  order_total_is_item_sum witOrderPending
    (.created "o1" (fun _ => "i0") 0 "u1" [witItemRaw] witOrderPending
      (by simp [NewOrder, assignItemIds, Order.goValidate, Order.recordEvent,
            calculateTotalLoop, witItemRaw, witOrderPending]
          norm_num))

/-- Claim C3: cancelling an order whose status is already `canceled` fails —
at the model and at the service level, leaving the store unchanged —
with `ErrOrderAlreadyCancelled`, which is distinct from the
`ErrOrderInvalidStatus` used for other illegal transitions and maps to
HTTP 409 Conflict (the invalid-state error maps to 400). -/
theorem cancel_already_canceled_is_conflict (now : Nat)
    (db : String → Option Order) (id : String) (o : Order)
    (hdb : db id = some o) (h : o.Status = .canceled) :
    o.Cancel now = .error ErrOrderAlreadyCancelled ∧
    OrderService.Cancel now db id = (db, [], some ErrOrderAlreadyCancelled) ∧
    ErrOrderAlreadyCancelled ≠ ErrOrderInvalidStatus ∧
    ErrOrderAlreadyCancelled.HTTPStatus = 409 ∧
    ErrOrderInvalidStatus.HTTPStatus = 400 := by
  have hc : o.Cancel now = .error ErrOrderAlreadyCancelled := by
    simp [Order.Cancel, h]
  exact ⟨hc, by simp [OrderService.Cancel, hdb, hc], by decide, rfl, rfl⟩

/-- Witness for C3 at a concrete canceled order. -/
theorem cancel_already_canceled_is_conflict_witness :
    witOrderCanceled.Cancel 3 = .error ErrOrderAlreadyCancelled ∧
    OrderService.Cancel 3 witOrderCanceledDB "oC" =
      (witOrderCanceledDB, [], some ErrOrderAlreadyCancelled) ∧
    ErrOrderAlreadyCancelled ≠ ErrOrderInvalidStatus ∧
    ErrOrderAlreadyCancelled.HTTPStatus = 409 ∧
    ErrOrderInvalidStatus.HTTPStatus = 400 :=
  cancel_already_canceled_is_conflict 3 witOrderCanceledDB "oC"
    witOrderCanceled (by decide) (by decide)

/-- Claim C4 counterexample: `UpdateStock` on a would-go-negative delta
fails with `ErrProductStockNegative`, whose kind is
`VALIDATION_ERROR` (HTTP 400) — not the insufficient-resource error
`ErrProductInsufficientStock` (`INSUFFICIENT_STOCK`, HTTP 409), which
is a different error value reserved for `ReserveStock`. -/
theorem updatestock_error_kind_counterexample :
    Product.UpdateStock 1 (-1) witProduct0 = .error ErrProductStockNegative ∧
    ErrProductStockNegative.Code = CodeValidationError ∧
    ErrProductStockNegative ≠ ErrProductInsufficientStock ∧
    ErrProductInsufficientStock.Code = CodeInsufficientStock ∧
    ErrProductStockNegative.HTTPStatus = 400 ∧
    ErrProductInsufficientStock.HTTPStatus = 409 := by decide

/-- Claim C4 (amended): for every product and delta with
`currentStock + delta < 0`, `UpdateStock` fails with the
stock-negative validation error (leaving the product unchanged, since
the error is returned before any mutation); for every delta with
`currentStock + delta ≥ 0` it succeeds and the new stock equals
`currentStock + delta`. -/
theorem updatestock_guard_and_result (now : Nat) (q : Int) (p : Product) :
    (p.Stock + q < 0 →
        Product.UpdateStock now q p = .error ErrProductStockNegative) ∧
    (0 ≤ p.Stock + q →
        exceptStock (Product.UpdateStock now q p) = some (p.Stock + q)) := by
  constructor
  · intro h
    simp [Product.UpdateStock, if_pos h]
  · intro h
    simp [Product.UpdateStock, exceptStock, Product.recordEvent,
      show ¬(p.Stock + q < 0) from not_lt.mpr h]

/-- Witness for C4's amended theorem: both branches at concrete
products. -/
theorem updatestock_guard_and_result_witness :
    Product.UpdateStock 1 (-1) witProduct0 = .error ErrProductStockNegative ∧
    exceptStock (Product.UpdateStock 1 3 witProduct5) =
      some (witProduct5.Stock + 3) :=
  ⟨(updatestock_guard_and_result 1 (-1) witProduct0).1 (by decide),
   (updatestock_guard_and_result 1 3 witProduct5).2 (by decide)⟩

/-- Claim C10: a successful `UpdateStock(quantity)` records exactly one
`product.stock_updated` event, and it is internally consistent:
`OldStock` is the pre-call stock, `NewStock = OldStock + quantity`,
`Change = quantity`, and the post-call stock equals `NewStock`. -/
theorem stock_updated_event_consistency (now : Nat) (q : Int)
    (p p' : Product) (h : Product.UpdateStock now q p = .ok p') :
    p'.events = p.events ++
      [DomainEvent.StockUpdatedEvent p.ID p.Stock (p.Stock + q) q] ∧
    p'.Stock = p.Stock + q :=
  updateStock_ok_shape now q p p' h

/-- Claim C1: the order status state machine. For a stored order, every
`(from, to)` pair in the §4.3 transition table makes
`OrderService.UpdateStatus` store the target status and publish the
order's events plus exactly one status-changed (or, for `canceled`,
cancellation) event; every pair outside the table fails with an
error of kind `INVALID_STATE` (for canceled→canceled this is the
conflict-mapped `ErrOrderAlreadyCancelled`, whose `Code` is still
`INVALID_STATE`) and leaves the store unchanged; and
`OrderService.Cancel` behaves exactly as `UpdateStatus` with target
`canceled`. -/
theorem order_status_state_machine (now : Nat)
    (db : String → Option Order) (id : String) (o : Order)
    (target : OrderStatus) (hdb : db id = some o) :
    (allowedTransition o.Status target = true →
        OrderService.UpdateStatus now db id target =
          ((fun k => if k = id then some { o with Status := target } else db k),
           o.events ++ [transitionEvent o.ID o.Status target], none)) ∧
    (allowedTransition o.Status target = false →
        ∃ e : DomainError,
          OrderService.UpdateStatus now db id target = (db, [], some e) ∧
          e.Code = CodeInvalidState) ∧
    OrderService.Cancel now db id =
      OrderService.UpdateStatus now db id .canceled := by
  refine ⟨?_, ?_, ?_⟩
  · intro hallow
    cases target <;> cases hs : o.Status <;> rw [hs] at hallow <;>
      first
        | exact absurd hallow (by decide)
        | simp_all [OrderService.UpdateStatus, orderStatusDispatch,
            Order.Confirm, Order.Ship, Order.Deliver, Order.Cancel,
            Order.recordEvent, transitionEvent, OrderStatus.toGoString]
  · intro hallow
    cases target <;> cases hs : o.Status <;> rw [hs] at hallow <;>
      first
        | exact absurd hallow (by decide)
        | (refine ⟨ErrOrderAlreadyCancelled, ?_, rfl⟩
           simp_all [OrderService.UpdateStatus, orderStatusDispatch,
             Order.Cancel]
           done)
        | (refine ⟨ErrOrderInvalidStatus, ?_, rfl⟩
           simp_all [OrderService.UpdateStatus, orderStatusDispatch,
             Order.Confirm, Order.Ship, Order.Deliver, Order.Cancel]
           done)
  · simp only [OrderService.Cancel, OrderService.UpdateStatus,
      orderStatusDispatch]

/-- Witness for C1: a concrete allowed transition (pending →
confirmed) through the service, stated on the projections of the
result. -/
theorem order_status_state_machine_witness :
    (OrderService.UpdateStatus 7 witOrderDB "o1" .confirmed).1 "o1" =
      some { witOrderPending with Status := OrderStatus.confirmed } ∧
    (OrderService.UpdateStatus 7 witOrderDB "o1" .confirmed).2.1 =
      witOrderPending.events ++
        [transitionEvent witOrderPending.ID witOrderPending.Status .confirmed] ∧
    (OrderService.UpdateStatus 7 witOrderDB "o1" .confirmed).2.2 = none := by
  have h := (order_status_state_machine 7 witOrderDB "o1" witOrderPending
    .confirmed (by decide)).1 (by decide)
  rw [h]
  exact ⟨by simp, rfl, rfl⟩

/-- Witness for C10 at a concrete stock update. -/
theorem stock_updated_event_consistency_witness :
    witProduct5Upd.events = witProduct5.events ++
      [DomainEvent.StockUpdatedEvent witProduct5.ID witProduct5.Stock
        (witProduct5.Stock + 3) 3] ∧
    witProduct5Upd.Stock = witProduct5.Stock + 3 :=
  stock_updated_event_consistency 1 3 witProduct5 witProduct5Upd (by decide)

/-- Claim C5 counterexample: `Product.ReserveStock` succeeds while appending
no domain event, and `User.UpdatePassword` applies its change with no
event and accepts an empty password, leaving the user violating the
non-empty-password invariant — so not every mutator appends exactly
one event, and one mutator can leave its aggregate invariant-breaking. -/
theorem mutator_event_exceptions_counterexample :
    Product.ReserveStock 1 3 witProduct5 =
      .ok { witProduct5 with Stock := 2, UpdatedAt := 1 } ∧
    ({ witProduct5 with Stock := 2, UpdatedAt := 1 } : Product).events =
      witProduct5.events ∧
    (User.UpdatePassword 1 "" witUser).Password = "" ∧
    (User.UpdatePassword 1 "" witUser).events = witUser.events ∧
    User.goValidate (User.UpdatePassword 1 "" witUser) =
      some ErrUserPasswordRequired := by decide

/-- Claim C5 (amended): every aggregate mutator except `Product.ReserveStock`
and `User.UpdatePassword` either fails (leaving the aggregate
unchanged, the guards running before any mutation) or fully applies
its change and appends exactly one event describing it;
`Product.ReserveStock` applies its stock change (or fails) appending
no event, and `User.UpdatePassword` unconditionally applies the new
password appending no event. -/
theorem mutator_event_discipline (now : Nat)
    (name description pw : String) (price : Rat) (q : Int)
    (target : OrderStatus) (p p' : Product) (u u' : User) (o o' : Order) :
    (Product.Update now name description price p = .ok p' →
        p'.events = p.events ++
          [DomainEvent.ProductUpdatedEvent p.ID name price]) ∧
    (Product.UpdateStock now q p = .ok p' →
        p'.events = p.events ++
          [DomainEvent.StockUpdatedEvent p.ID p.Stock (p.Stock + q) q]) ∧
    ((Product.MarkDeleted now p).events =
        p.events ++ [DomainEvent.ProductDeletedEvent p.ID]) ∧
    (User.Update now name u = .ok u' →
        u'.events = u.events ++ [DomainEvent.UserUpdatedEvent u.ID name]) ∧
    ((User.MarkDeleted now u).events =
        u.events ++ [DomainEvent.UserDeletedEvent u.ID]) ∧
    (orderStatusDispatch now target o = .ok o' →
        o'.events = o.events ++ [transitionEvent o.ID o.Status target]) ∧
    (Product.ReserveStock now q p = .ok p' → p'.events = p.events) ∧
    ((User.UpdatePassword now pw u).events = u.events) ∧
    ((User.UpdatePassword now pw u).Password = pw) := by
  refine ⟨?_, fun h => (updateStock_ok_shape now q p p' h).1, ?_, ?_, ?_,
    ?_, ?_, rfl, rfl⟩
  · intro h
    unfold Product.Update at h
    by_cases h1 : name = ""
    · simp [h1] at h
    · by_cases h2 : price ≤ 0
      · simp [h1, h2] at h
      · rw [if_neg h1, if_neg h2] at h
        simp only [Except.ok.injEq] at h
        subst h
        simp [Product.recordEvent]
  · simp [Product.MarkDeleted, Product.recordEvent]
  · intro h
    unfold User.Update at h
    by_cases h1 : name = ""
    · simp [h1] at h
    · rw [if_neg h1] at h
      simp only [Except.ok.injEq] at h
      subst h
      simp [User.recordEvent]
  · simp [User.MarkDeleted, User.recordEvent]
  · intro h
    cases target <;>
      simp only [orderStatusDispatch, Order.Confirm, Order.Ship,
        Order.Deliver, Order.Cancel] at h <;>
      (try split at h) <;> (try split at h) <;>
      first
        | (simp only [Except.ok.injEq] at h
           subst h
           simp_all [Order.recordEvent, transitionEvent,
             OrderStatus.toGoString, not_not])
        | simp at h
  · intro h
    unfold Product.ReserveStock at h
    by_cases h1 : p.Stock < q
    · simp [h1] at h
    · rw [if_neg h1] at h
      simp only [Except.ok.injEq] at h
      subst h
      rfl

/-- Witness for C5's amended theorem: a concrete `Product.Update`
appends its single event; a concrete `UpdatePassword` appends none. -/
theorem mutator_event_discipline_witness :
    witProductUpd.events = witProduct5.events ++
      [DomainEvent.ProductUpdatedEvent witProduct5.ID "N2" 4] ∧
    (User.UpdatePassword 1 "x" witUser).events = witUser.events :=
  ⟨(mutator_event_discipline 2 "N2" "d" "x" 4 0 .pending witProduct5
      witProductUpd witUser witUser witOrderPending witOrderPending).1
      (by decide),
   (mutator_event_discipline 2 "N2" "d" "x" 4 0 .pending witProduct5
      witProductUpd witUser witUser witOrderPending
      witOrderPending).2.2.2.2.2.2.2.1⟩

/-- A passing item-validation loop guarantees every item has a product
ID, a positive quantity and a positive price. -/
theorem validateOrderItemsLoop_none :
    ∀ {l : List OrderItemInput}, validateOrderItemsLoop l = none →
      ∀ it ∈ l, it.ProductID ≠ "" ∧ 0 < it.Quantity ∧ 0 < it.Price := by
  intro l
  induction l with
  | nil => intro _ it hit; simp at hit
  | cons x xs ih =>
      intro h it hit
      unfold validateOrderItemsLoop at h
      by_cases h1 : x.ProductID = ""
      · simp [h1] at h
      · by_cases h2 : x.Quantity ≤ 0
        · simp [h1, h2] at h
        · by_cases h3 : x.Price ≤ 0
          · simp [h1, h2, h3] at h
          · rw [if_neg h1, if_neg h2, if_neg h3] at h
            rcases List.mem_cons.mp hit with rfl | hmem
            · exact ⟨h1, not_le.mp h2, not_le.mp h3⟩
            · exact ih h it hmem

/-- ID assignment inside `NewOrder` preserves each item's quantity and
price. -/
theorem assignItemIds_mem (orderID : String) (idGen : Nat → String)
    (now : Nat) :
    ∀ (i : Nat) (l : List OrderItem) (x : OrderItem),
      x ∈ assignItemIds orderID idGen now i l →
      ∃ y ∈ l, x.Quantity = y.Quantity ∧ x.Price = y.Price := by
  intro i l
  induction l generalizing i with
  | nil => intro x hx; simp [assignItemIds] at hx
  | cons a as ih =>
      intro x hx
      simp only [assignItemIds, List.mem_cons] at hx
      rcases hx with rfl | hx
      · exact ⟨a, List.mem_cons_self a as, rfl, rfl⟩
      · obtain ⟨y, hy, hq, hp⟩ := ih (i + 1) x hx
        exact ⟨y, List.mem_cons_of_mem a hy, hq, hp⟩

/-- Shape of a successful `OrderService.Create`: the stored/returned
order is the drained factory order. -/
theorem OrderServiceCreate_ok_shape (orderID : String)
    (idGen : Nat → String) (now : Nat) (userDB : String → Option User)
    (orderDB : List Order) (userID : String) (items : List OrderItem)
    (db' : List Order) (o : Order) (evs : List DomainEvent)
    (h : OrderService.Create orderID idGen now userDB orderDB userID items
          = (db', .ok (o, evs))) :
    o.UserID = userID ∧
    o.Items = assignItemIds orderID idGen now 0 items ∧
    o.Items ≠ [] ∧ userID ≠ "" := by
  unfold OrderService.Create at h
  cases hu : userDB userID with
  | none => simp [hu] at h
  | some w =>
      simp only [hu] at h
      cases hn : NewOrder orderID idGen now userID items with
      | error e => simp [hn] at h
      | ok o0 =>
          simp only [hn, Order.drainEvents, Prod.mk.injEq,
            Except.ok.injEq] at h
          obtain ⟨huser, hitems, -, -, hne, hnonnil⟩ :=
            NewOrder_ok_shape orderID idGen now userID items o0 hn
          obtain ⟨-, ho, -⟩ := h
          subst ho
          exact ⟨huser, hitems, hnonnil, hne⟩

/-- Claim C6 counterexample: `NewOrder` itself accepts an item with
quantity 0 and negative price — the factory checks only that the user
ID is non-empty and at least one item exists, so an invalid-item order
is constructed successfully rather than failing fast. -/
theorem neworder_item_validation_counterexample :
    NewOrder "o1" (fun _ => "i0") 0 "u1"
        [{ ID := "", OrderID := "", ProductID := "p1", Quantity := 0,
           Price := -1, CreatedAt := 0 }] =
      .ok { ID := "o1", UserID := "u1",
            Items := [{ ID := "i0", OrderID := "o1", ProductID := "p1",
                        Quantity := 0, Price := -1, CreatedAt := 0 }],
            Total := 0, Status := .pending, CreatedAt := 0, UpdatedAt := 0,
            DeletedAt := none,
            events := [.OrderCreatedEvent "u1" 1 0] } := by
  simp [NewOrder, assignItemIds, Order.goValidate, Order.recordEvent,
    calculateTotalLoop]

/-- Claim C6 (amended): an order produced through the create-order use case
(`CreateOrderInput.Validate` before `OrderService.Create`/`NewOrder`)
has a non-empty user, at least one item, and every item with positive
quantity and positive price; but the quantity/price positivity is
enforced by the application-layer DTO validation only — `NewOrder`
itself checks just the non-empty user and the at-least-one-item rule. -/
theorem create_order_pipeline_validation (orderID : String)
    (idGen : Nat → String) (now : Nat) (userDB : String → Option User)
    (orderDB : List Order) (input : CreateOrderInput) (db' : List Order)
    (o : Order)
    (h : CreateOrderUseCase.Execute orderID idGen now userDB orderDB input
          = (db', .ok o)) :
    o.Items ≠ [] ∧ o.UserID ≠ "" ∧
    o.Items.all
      (fun item => decide (0 < item.Quantity) && decide (0 < item.Price))
      = true := by
  unfold CreateOrderUseCase.Execute at h
  cases hv : input.goValidate with
  | some msg => simp [hv] at h
  | none =>
      simp only [hv] at h
      cases hc : OrderService.Create orderID idGen now userDB orderDB
          input.UserID
          (input.Items.map (fun it =>
            ({ ID := "", OrderID := "", ProductID := it.ProductID,
               Quantity := it.Quantity, Price := it.Price,
               CreatedAt := 0 } : OrderItem))) with
      | mk db1 r =>
          cases r with
          | error e => simp [hc] at h
          | ok pr =>
              obtain ⟨o1, evs⟩ := pr
              simp only [hc, Prod.mk.injEq, Except.ok.injEq] at h
              obtain ⟨-, ho⟩ := h
              subst ho
              obtain ⟨huser, hitems, hnonnil, -⟩ :=
                OrderServiceCreate_ok_shape _ _ _ _ _ _ _ _ _ _ hc
              have hloop : validateOrderItemsLoop input.Items = none := by
                unfold CreateOrderInput.goValidate at hv
                by_cases hu : input.UserID = ""
                · simp [hu] at hv
                · by_cases hl : input.Items.length = 0
                  · simp [hu, hl] at hv
                  · rwa [if_neg hu, if_neg hl] at hv
              have huid : input.UserID ≠ "" := by
                unfold CreateOrderInput.goValidate at hv
                by_cases hu : input.UserID = ""
                · simp [hu] at hv
                · exact hu
              refine ⟨hnonnil, huser ▸ huid, ?_⟩
              rw [List.all_eq_true]
              intro item hmem
              rw [hitems] at hmem
              obtain ⟨y, hy, hq, hp⟩ := assignItemIds_mem _ _ _ _ _ _ hmem
              obtain ⟨src, hsrc, hys⟩ := List.mem_map.mp hy
              obtain ⟨-, hqpos, hppos⟩ :=
                validateOrderItemsLoop_none hloop src hsrc
              have hq2 : item.Quantity = src.Quantity := by
                rw [hq, ← hys]
              have hp2 : item.Price = src.Price := by
                rw [hp, ← hys]
              simp [hq2, hp2, hqpos, hppos]

/-- Witness for C6's amended theorem at a concrete use-case run. -/
theorem create_order_pipeline_validation_witness :
    witOrderDrained.Items ≠ [] ∧ witOrderDrained.UserID ≠ "" ∧
    witOrderDrained.Items.all
      (fun item => decide (0 < item.Quantity) && decide (0 < item.Price))
      = true :=
  create_order_pipeline_validation "o1" (fun _ => "i0") 0 witUserDB []
    witCreateInput [witOrderDrained] witOrderDrained
    (by simp [CreateOrderUseCase.Execute, CreateOrderInput.goValidate,
          validateOrderItemsLoop, OrderService.Create, NewOrder,
          assignItemIds, Order.goValidate, calculateTotalLoop,
          Order.recordEvent, Order.drainEvents, witCreateInput, witUserDB,
          witUser, witOrderDrained, witOrderPending, witItemRaw]
        norm_num)

/-- Claim C7: `UserService.Create` with an email the repository lookup finds
returns the email-taken conflict (HTTP 409) and leaves the store
unchanged — no insert happens. The statement holds for every `name`
and `password`, including invalid ones: the uniqueness lookup runs
before the `NewUser` factory, so no validation error can preempt the
conflict. -/
theorem create_user_email_conflict (uid : String) (now : Nat)
    (db : List User) (email name password : String) (u : User)
    (hfind : db.find? (fun v => v.Email == email) = some u) :
    UserService.Create uid now db email name password =
      (db, .error ErrUserEmailTaken) ∧
    ErrUserEmailTaken.HTTPStatus = 409 ∧
    ErrUserEmailTaken.Code = "EMAIL_TAKEN" := by
  refine ⟨?_, rfl, rfl⟩
  simp [UserService.Create, hfind]

/-- Witness for C7: duplicate email (invalid name/password) at a
concrete store. -/
theorem create_user_email_conflict_witness :
    UserService.Create "u2" 5 [witUser] "a@b.com" "" "" =
      ([witUser], .error ErrUserEmailTaken) ∧
    ErrUserEmailTaken.HTTPStatus = 409 ∧
    ErrUserEmailTaken.Code = "EMAIL_TAKEN" :=
  create_user_email_conflict "u2" 5 [witUser] "a@b.com" "" "" witUser
    (by decide)

/-- A successful `UserService.Update` returns the user stored under
the requested ID (its `ID` field is the requested one). -/
theorem UserServiceUpdate_ok_ID (now : Nat) (db : List User)
    (id name : String) (db2 : List User) (user : User)
    (h : UserService.Update now db id name = (db2, .ok user)) :
    user.ID = id := by
  unfold UserService.Update at h
  cases hf : db.find? (fun u => u.ID == id) with
  | none => simp [hf] at h
  | some u =>
      simp only [hf] at h
      cases hu : u.Update now name with
      | error e => simp [hu] at h
      | ok u1 =>
          simp only [hu, User.drainEvents, Prod.mk.injEq,
            Except.ok.injEq] at h
          obtain ⟨-, hus⟩ := h
          subst hus
          have hid1 : u1.ID = u.ID := by
            unfold User.Update at hu
            by_cases hn : name = ""
            · simp [hn] at hu
            · rw [if_neg hn] at hu
              simp only [Except.ok.injEq] at hu
              subst hu
              rfl
          have hui : u.ID = id := by
            simpa using List.find?_some hf
          simp [hid1, hui]

/-- A failed `UserService.Update` leaves the store unchanged. -/
theorem UserServiceUpdate_error_db (now : Nat) (db : List User)
    (id name : String) (db2 : List User) (e : DomainError)
    (h : UserService.Update now db id name = (db2, .error e)) :
    db2 = db := by
  unfold UserService.Update at h
  cases hf : db.find? (fun u => u.ID == id) with
  | none =>
      simp only [hf, Prod.mk.injEq] at h
      exact h.1.symm
  | some u =>
      simp only [hf] at h
      cases hu : u.Update now name with
      | error e2 =>
          simp only [hu, Prod.mk.injEq] at h
          exact h.1.symm
      | ok u1 => simp [hu, User.drainEvents] at h

/-- A failed `UserService.Delete` leaves the store unchanged. -/
theorem UserServiceDelete_error_db (now : Nat) (db : List User)
    (id : String) (db2 : List User) (e : DomainError)
    (h : UserService.Delete now db id = (db2, .error e)) :
    db2 = db := by
  unfold UserService.Delete at h
  cases hf : db.find? (fun u => u.ID == id) with
  | none =>
      simp only [hf, Prod.mk.injEq] at h
      exact h.1.symm
  | some u => simp [hf] at h

/-- Claim C8: after a successful cache-decorated `Update`, the primary cache
entry holds exactly the delegate's updated user (so a subsequent
`get(id)` returns it — never a stale pre-update value) and the email
entry holds the refreshed email → id mapping; after a successful
`Delete`, the primary entry and the pre-delete user's email entry are
both gone; when the delegate fails, the cache is untouched and the
store unchanged. The `hkeys` premise rules out the degenerate key
collision `id = "email:…"` (IDs are UUIDs). -/
theorem cache_write_invalidation (now : Nat) (db : List User) (c : Cache)
    (id name : String)
    (hkeys : ∀ email : String, userCacheKey id ≠ emailCacheKey email) :
    (∀ db1 c1 user,
        CachedUserService.Update now db c id name = (db1, c1, .ok user) →
          c1 (userCacheKey id) = some (.user user) ∧
          c1 (emailCacheKey user.Email) = some (.uid user.ID) ∧
          (CachedUserService.Get db1 c1 id).2.1 = some user ∧
          (CachedUserService.Get db1 c1 id).2.2 = true) ∧
    (∀ db1 c1 e,
        CachedUserService.Update now db c id name = (db1, c1, .error e) →
          c1 = c ∧ db1 = db) ∧
    (∀ db1 c1,
        CachedUserService.Delete now db c id = (db1, c1, .ok ()) →
          c1 (userCacheKey id) = none ∧
          ∀ cu, UserService.Get db id = some cu →
            c1 (emailCacheKey cu.Email) = none) ∧
    (∀ db1 c1 e,
        CachedUserService.Delete now db c id = (db1, c1, .error e) →
          c1 = c ∧ db1 = db) := by
  refine ⟨?_, ?_, ?_, ?_⟩
  · intro db1 c1 user h
    unfold CachedUserService.Update at h
    cases hup : UserService.Update now db id name with
    | mk db2 r =>
        cases r with
        | error e => simp [hup] at h
        | ok u2 =>
            have hid : u2.ID = id :=
              UserServiceUpdate_ok_ID now db id name db2 u2 hup
            simp only [hup, Prod.mk.injEq, Except.ok.injEq] at h
            obtain ⟨rfl, rfl, rfl⟩ := h
            have h1 : (cacheUser
                (match UserService.Get db id with
                 | some cu =>
                     invalidateEmailCache (invalidateUserCache c id) cu.Email
                 | none => invalidateUserCache c id) u2)
                  (userCacheKey id) = some (.user u2) := by
              simp only [cacheUser, cacheSet]
              rw [if_neg (hkeys u2.Email), hid, if_pos rfl]
            refine ⟨h1, ?_, ?_, ?_⟩
            · simp [cacheUser, cacheSet]
            · unfold CachedUserService.Get
              rw [h1]
            · unfold CachedUserService.Get
              rw [h1]
  · intro db1 c1 e h
    unfold CachedUserService.Update at h
    cases hup : UserService.Update now db id name with
    | mk db2 r =>
        cases r with
        | ok u2 => simp [hup] at h
        | error e2 =>
            simp only [hup, Prod.mk.injEq, Except.error.injEq] at h
            obtain ⟨rfl, rfl, rfl⟩ := h
            exact ⟨rfl, UserServiceUpdate_error_db now db id name db2 e2 hup⟩
  · intro db1 c1 h
    unfold CachedUserService.Delete at h
    cases hdel : UserService.Delete now db id with
    | mk db2 r =>
        cases r with
        | error e => simp [hdel] at h
        | ok ures =>
            simp only [hdel, Prod.mk.injEq] at h
            obtain ⟨rfl, rfl, -⟩ := h
            constructor
            · cases hg : UserService.Get db id with
              | none =>
                  simp [hg, invalidateUserCache, cacheDeleteKey]
              | some cu =>
                  simp [hg, invalidateUserCache, invalidateEmailCache,
                    cacheDeleteKey]
            · intro cu hg
              simp [hg, invalidateUserCache, invalidateEmailCache,
                cacheDeleteKey]
  · intro db1 c1 e h
    unfold CachedUserService.Delete at h
    cases hdel : UserService.Delete now db id with
    | mk db2 r =>
        cases r with
        | ok ures => simp [hdel] at h
        | error e2 =>
            simp only [hdel, Prod.mk.injEq, Except.error.injEq] at h
            obtain ⟨rfl, rfl, rfl⟩ := h
            exact ⟨rfl, UserServiceDelete_error_db now db id db2 e2 hdel⟩

/-- Witness for C8 at a concrete update through the decorator. -/
theorem cache_write_invalidation_witness :
    witCacheAfterUpdate (userCacheKey "u1") = some (.user witUserUpd) ∧
    witCacheAfterUpdate (emailCacheKey witUserUpd.Email) =
      some (.uid witUserUpd.ID) := by
  have hkeys : ∀ email : String, userCacheKey "u1" ≠ emailCacheKey email := by
    intro em heq
    have hlen := congrArg String.length heq
    simp only [userCacheKey, emailCacheKey, String.length_append,
      show ("user:" : String).length = 5 from rfl,
      show ("u1" : String).length = 2 from rfl,
      show ("user:email:" : String).length = 11 from rfl] at hlen
    omega
  have heq : CachedUserService.Update 2 [witUser] (fun _ => none) "u1" "B" =
      ([witUserUpd], witCacheAfterUpdate, .ok witUserUpd) := by rfl
  have h := (cache_write_invalidation 2 [witUser] (fun _ => none) "u1" "B"
      hkeys).1 [witUserUpd] witCacheAfterUpdate witUserUpd heq
  exact ⟨h.1, h.2.1⟩

/-- Claim C9: each aggregate's list pipeline (the list-input validation run
by the use case, then the domain service's pass-through `List`)
queries the repository with a negative offset clamped to 0 and a
non-positive limit clamped to the default 10; the domain-service
`List` itself forwards its arguments unchanged. In particular, for
offset ≥ 0 and limit > 0 the query sees the arguments untouched. -/
theorem list_offset_limit_clamping {α : Type} (repoList : Int → Int → α)
    (offset limit : Int) :
    (ListOrdersUseCase.Execute repoList { Offset := offset, Limit := limit }
        = repoList (if offset < 0 then 0 else offset)
            (if limit ≤ 0 then 10 else limit)) ∧
    (ListProductsUseCase.Execute repoList { Offset := offset, Limit := limit }
        = repoList (if offset < 0 then 0 else offset)
            (if limit ≤ 0 then 10 else limit)) ∧
    (ListUsersUseCase.Execute repoList { Offset := offset, Limit := limit }
        = repoList (if offset < 0 then 0 else offset)
            (if limit ≤ 0 then 10 else limit)) ∧
    (OrderService.List repoList offset limit = repoList offset limit) ∧
    (ProductService.List repoList offset limit = repoList offset limit) ∧
    (UserService.List repoList offset limit = repoList offset limit) := by
  refine ⟨?_, ?_, ?_, rfl, rfl, rfl⟩ <;>
    by_cases hl : limit ≤ 0 <;> by_cases ho : offset < 0 <;>
      simp [ListOrdersUseCase.Execute, ListProductsUseCase.Execute,
        ListUsersUseCase.Execute, ListOrdersInput.goValidate,
        ListProductsInput.goValidate, ListUsersInput.goValidate,
        OrderService.List, ProductService.List, UserService.List, hl, ho]

/-- Witness for C9: clamping at `(-5, 0)` and pass-through at
`(3, 7)`. -/
theorem list_offset_limit_clamping_witness :
    ListOrdersUseCase.Execute (fun a b => (a, b))
      { Offset := -5, Limit := 0 } = ((0 : Int), (10 : Int)) ∧
    ListUsersUseCase.Execute (fun a b => (a, b))
      { Offset := 3, Limit := 7 } = ((3 : Int), (7 : Int)) := by
  constructor
  · rw [(list_offset_limit_clamping (fun a b => (a, b)) (-5) 0).1]
    norm_num
  · rw [(list_offset_limit_clamping (fun a b => (a, b)) 3 7).2.2.1]
    norm_num

end Hexa
